import Mathlib

/-!
Verification of the assignment-sync pipeline (`src/sync-assignments.mjs`).

The JavaScript source is shallowly embedded as pure Lean functions.  Network
calls (roster endpoint, per-item detail endpoint, remote-store query) and
non-deterministic primitives (date parsing, JSON/base64 decoding, the wall
clock) are passed in as explicit oracle parameters; all control flow and data
manipulation are translated directly from the source.
-/

/-! ## String helpers: the tag-stripping regex and `trim` -/

/-- The JavaScript whitespace class used by `String.prototype.trim`
(the common members; exotic Unicode spaces are omitted, which is sound for
every concrete input used below). -/
def jsWhitespace (c : Char) : Bool :=
  c = ' ' || c = '\t' || c = '\n' || c = '\r' ||
  c = Char.ofNat 11 || c = Char.ofNat 12 ||
  c = Char.ofNat 160 || c = Char.ofNat 0xFEFF ||
  c = Char.ofNat 0x2028 || c = Char.ofNat 0x2029

/-- Scanner for the global replace `s.replace(/<[^>]*>/g, '')` from
`normalizeAssignment` / `fetchAssignmentDetails`.  State `none`: outside any
candidate tag.  State `some buf`: the characters consumed since the opening
`<` (in reverse order, `<` last); if a `>` arrives the whole buffer is a regex
match and is dropped, and if input ends first the regex never matched there,
so the buffer is emitted verbatim. -/
def stripAux : Option (List Char) → List Char → List Char
  | none, [] => []
  | none, c :: rest =>
    if c = '<' then stripAux (some [c]) rest else c :: stripAux none rest
  | some buf, [] => buf.reverse
  | some buf, c :: rest =>
    if c = '>' then stripAux none rest else stripAux (some (c :: buf)) rest

/-- `l.replace(/<[^>]*>/g, '')` on a character list. -/
def stripTagsList (l : List Char) : List Char :=
  stripAux none l

/-- `String.prototype.trim` on a character list. -/
def jsTrimList (l : List Char) : List Char :=
  (((l.dropWhile jsWhitespace).reverse.dropWhile jsWhitespace)).reverse

/-- `s.replace(/<[^>]*>/g, '').trim()` — the description extraction used by
`normalizeAssignment` (src/sync-assignments.mjs lines 590 and 599). -/
def stripTrim (s : String) : String :=
  String.mk (jsTrimList (stripTagsList s.data))

/-- `l` contains no complete markup tag: no decomposition with a `<`
followed (anywhere later) by a `>`. -/
def TagFree (l : List Char) : Prop :=
  ∀ l1 l2 l3, l ≠ l1 ++ '<' :: (l2 ++ '>' :: l3)

/-- Every `<` occurring in `l` has no `>` anywhere after it. -/
def NoGtAfterLt (l : List Char) : Prop :=
  ∀ l1 l2, l = l1 ++ '<' :: l2 → '>' ∉ l2

/-! ## CredentialValidator: `validateToken` (lines 234-259) -/

/-- The decoded JWT payload; only the `exp` claim is consulted by the code.
`exp` is modelled as an optional integer (absent field, or present value). -/
structure Payload where
  exp : Option Int
deriving DecidableEq

/-- JavaScript `token.split('.')` on a character list (`''.split('.')`
yields `['']`, matching this definition on `[]`). -/
def splitOnDot : List Char → List (List Char)
  | [] => [[]]
  | c :: rest =>
    let r := splitOnDot rest
    if c = '.' then [] :: r
    else
      match r with
      | h :: t => (c :: h) :: t
      | [] => [[c]]

/-- `validateToken(token)` (lines 234-259).  `decodePayload` is the oracle for
`JSON.parse(Buffer.from(parts[1], 'base64').toString())`; it returns `none`
when that expression throws (the `catch` branch).  `now` is
`Math.floor(Date.now() / 1000)`.  The guard `payload.exp && payload.exp > now`
is truthiness: an absent or zero `exp` falls through to the expired branch. -/
def validateToken (decodePayload : List Char → Option Payload)
    (token : Option (List Char)) (now : Int) : Bool :=
  match token with
  | none => false
  | some t =>
    if t = [] then false
    else
      match splitOnDot t with
      | [_p0, p1, _p2] =>
        match decodePayload p1 with
        | none => false
        | some payload =>
          match payload.exp with
          | some e => if e ≠ 0 ∧ e > now then true else false
          | none => false
      | _ => false

/-! ## CredentialRefreshOrchestrator: `refreshTokensIfNeeded` (lines 261-309)
and the auto-refresh policy in `run` (lines 1189-1206) -/

/-- Observable outcome of one `refreshTokensIfNeeded()` call.
`launched`: the `simple-edge-extractor.mjs` subprocess was spawned;
`reloadedOverride`: `loadEnv(true)` ran (configuration reloaded with
override semantics); `ok`: the returned boolean. -/
structure RefreshOutcome where
  launched : Bool
  reloadedOverride : Bool
  ok : Bool
deriving DecidableEq

/-- `refreshTokensIfNeeded()` (lines 261-309).  `tokenValid` abbreviates
`token && this.validateToken(token)` on entry; `extractorOk` is whether the
spawned extractor exits with code 0 (a non-zero code rejects, is caught, and
the function returns `false`); `tokenValidAfterReload` is the verdict of
`validateToken` on the token found after `loadEnv(true)`. -/
def refreshTokensIfNeeded (tokenValid extractorOk tokenValidAfterReload : Bool) :
    RefreshOutcome :=
  if tokenValid then ⟨false, false, true⟩
  else if extractorOk then ⟨true, true, tokenValidAfterReload⟩
  else ⟨true, false, false⟩

/-- `this.args.refreshTokens || (!isCi && !autoRefreshDisabled)`
(line 1192). -/
def shouldAutoRefresh (refreshTokens isCi autoRefreshDisabled : Bool) : Bool :=
  refreshTokens || (!isCi && !autoRefreshDisabled)

/-- How the credential phase of `run` ends: proceed to the sync, or
`process.exit(1)`. -/
inductive CredResult where
  | proceed
  | exitError
deriving DecidableEq

/-- Observable outcome of the credential phase of `run`. -/
structure CredPhase where
  launched : Bool
  result : CredResult
deriving DecidableEq

/-- The credential phase of `run()` (lines 1189-1206): auto-refresh when
`shouldAutoRefresh`, otherwise validate-only and exit on an invalid token. -/
def credPhase (refreshTokens isCi autoRefreshDisabled tokenValid extractorOk
    tokenValidAfterReload : Bool) : CredPhase :=
  if shouldAutoRefresh refreshTokens isCi autoRefreshDisabled then
    let r := refreshTokensIfNeeded tokenValid extractorOk tokenValidAfterReload
    ⟨r.launched, if r.ok then .proceed else .exitError⟩
  else
    ⟨false, if tokenValid then .proceed else .exitError⟩

/-! ## RosterCache: `fetchClassMembers` (lines 365-416) -/

/-- One roster entry as built at lines 383-388 (the API's member fields,
taken as given). -/
structure Person where
  id : String
  displayName : String
  email : String
  role : String
deriving DecidableEq

/-- The memoized value: `{teachers, students, byId}`.  The JS `Map` `byId` is
modelled as an association list with `Map.set` replace-or-append
semantics. -/
structure Members where
  teachers : List Person
  students : List Person
  byId : List (String × Person)
deriving DecidableEq

def emptyMembers : Members := ⟨[], [], []⟩

/-- JS `Map.prototype.set`: replace an existing key, else append. -/
def mapSet (l : List (String × Members)) (k : String) (v : Members) :
    List (String × Members) :=
  if l.any (fun kv => kv.1 == k) then
    l.map (fun kv => if kv.1 == k then (k, v) else kv)
  else l ++ [(k, v)]

/-- JS `Map.prototype.get` on `byId` (also covers the preceding `has`). -/
def mapGet (l : List (String × Person)) (k : String) : Option Person :=
  (l.find? (fun kv => kv.1 == k)).map (·.2)

/-- `Map.prototype.get` on the `classMembers` cache. -/
def lookupCache (cache : List (String × Members)) (k : String) :
    Option Members :=
  (cache.find? (fun kv => kv.1 == k)).map (·.2)

/-- The `data.value.forEach(...)` loop of lines 381-398: file every member
into `byId` and into `teachers`/`students` by role. -/
def buildMembers (value : List Person) : Members :=
  value.foldl
    (fun m p =>
      { byId :=
          if m.byId.any (fun kv => kv.1 == p.id) then
            m.byId.map (fun kv => if kv.1 == p.id then (p.id, p) else kv)
          else m.byId ++ [(p.id, p)]
        teachers := m.teachers ++ (if p.role = "teacher" then [p] else [])
        students := m.students ++ (if p.role = "student" then [p] else []) })
    emptyMembers

/-- `fetchClassMembers(classId)` (lines 365-416).  `oracle` is the roster
endpoint (`fetchWithAuth(membersUrl, true)`), returning the page's `value`
array or a thrown error.  The third component records whether a network fetch
was performed (false on a cache hit).  A failed fetch is caught, yields
`emptyMembers`, and is cached like a success. -/
def fetchClassMembers (oracle : String → Except String (List Person))
    (cache : List (String × Members)) (classId : String) :
    Members × List (String × Members) × Bool :=
  match lookupCache cache classId with
  | some m => (m, cache, false)
  | none =>
    match oracle classId with
    | .ok value =>
      let m := buildMembers value
      (m, mapSet cache classId m, true)
    | .error _ =>
      (emptyMembers, mapSet cache classId emptyMembers, true)

/-- A whole run's sequence of `fetchClassMembers` calls, threading the cache;
returns the class ids for which a network fetch actually happened, in
order. -/
def fetchEvents (oracle : String → Except String (List Person)) :
    List (String × Members) → List String → List String
  | _, [] => []
  | cache, classId :: rest =>
    let r := fetchClassMembers oracle cache classId
    (if r.2.2 then [classId] else []) ++ fetchEvents oracle r.2.1 rest

/-- The keys currently memoized. -/
def cacheKeys (cache : List (String × Members)) : List String :=
  cache.map Prod.fst

/-! ## AssignmentNormalizer: `normalizeAssignment` (lines 550-626) -/

/-- `raw.instructions` — only the `content` field is read. -/
structure Instructions where
  content : Option String
deriving DecidableEq

/-- `raw.createdBy.user` — only the `id` field is read. -/
structure CreatedUser where
  id : Option String
deriving DecidableEq

structure CreatedBy where
  user : Option CreatedUser
deriving DecidableEq

/-- `raw.submissionAggregates` — the `total` and `submitted` counts. -/
structure SubAgg where
  total : Option Int
  submitted : Option Int
deriving DecidableEq

/-- A raw record from the listing (or detail) endpoint.  Every field the code
reads is optional: the upstream payload may omit any of them. -/
structure Raw where
  id : Option String := none
  displayName : Option String := none
  dueDateTime : Option String := none
  assignedDateTime : Option String := none
  createdDateTime : Option String := none
  lastModifiedDateTime : Option String := none
  status : Option String := none
  classId : Option String := none
  webUrl : Option String := none
  instructions : Option Instructions := none
  createdBy : Option CreatedBy := none
  allTurnedIn : Option Bool := none
  anySubmittedState : Option Bool := none
  allowLateSubmissions : Option Bool := none
  submissionAggregates : Option SubAgg := none
deriving DecidableEq

/-- The canonical assignment record returned at lines 606-625. -/
structure Canonical where
  id : String
  title : String
  description : String
  dueDate : String
  assignedDate : String
  createdDate : String
  modifiedDate : String
  status : String
  classId : String
  teacherName : String
  teacherEmail : String
  studentCount : Nat
  webUrl : String
  allTurnedIn : Bool
  anySubmittedState : Bool
  allowLateSubmissions : Bool
  agg_total : Int
  agg_submitted : Int
deriving DecidableEq

/-- JavaScript truthiness of an optional string (`undefined`, `null` and `''`
are falsy). -/
def optTruthy : Option String → Bool
  | none => false
  | some s => s ≠ ""

/-- `this.iso(s)` (lines 125-129): `''` for an absent/empty/unparsable value,
else `new Date(s).toISOString()`.  `pIso` is the oracle for the
`Date` parse-and-reformat step (`none` when `parseIsoOrNull` yields null). -/
def iso (pIso : String → Option String) : Option String → String
  | none => ""
  | some s => if s = "" then "" else (pIso s).getD ""

/-- `raw.instructions && raw.instructions.content` guarded extraction
(lines 588-591): strip tags and trim when `content` is truthy, else `''`. -/
def extractInstructionsText : Option Instructions → String
  | none => ""
  | some ins =>
    match ins.content with
    | none => ""
    | some c => if c = "" then "" else stripTrim c

/-- The two-tier description resolution of lines 587-604.  `dof` is the
oracle for `fetchDetailedAssignment(classId, raw.id)`, which returns the
parsed detail record or `null` (failures are caught inside it and also at the
call site). -/
def computeDescription (dof : String → String → Option Raw)
    (classId : String) (rawId : Option String) (ins : Option Instructions) :
    String :=
  let d0 := extractInstructionsText ins
  if d0 = "" ∧ classId ≠ "" ∧ optTruthy rawId then
    match dof classId (rawId.getD "") with
    | some det => extractInstructionsText det.instructions
    | none => d0
  else d0

/-- Result of the teacher-resolution block of lines 556-585. -/
structure TeacherInfo where
  teacherName : String
  teacherEmail : String
  studentCount : Nat
  cache : List (String × Members)

/-- Lines 556-585: when `classId` is truthy, fetch the roster and resolve the
teacher — prefer the `createdBy` user when it is a teacher, else fall back to
`teachers[0]` whenever the resolved name is still empty.  `fetchClassMembers`
never throws in this model (its failures are caught internally), so the
surrounding `try`/`catch` is dead. -/
def resolveTeacher (mo : String → Except String (List Person))
    (cache : List (String × Members)) (classId : String)
    (createdBy : Option CreatedBy) : TeacherInfo :=
  if classId = "" then ⟨"", "", 0, cache⟩
  else
    let fr := fetchClassMembers mo cache classId
    let members := fr.1
    let createdByUserId : Option String := (createdBy.bind (·.user)).bind (·.id)
    let t0 : String × String :=
      match createdByUserId with
      | some uid =>
        if uid = "" then ("", "")
        else
          match mapGet members.byId uid with
          | some creator =>
            if creator.role = "teacher" then (creator.displayName, creator.email)
            else ("", "")
          | none => ("", "")
      | none => ("", "")
    let t1 : String × String :=
      if t0.1 = "" then
        match members.teachers with
        | t :: _ => (t.displayName, t.email)
        | [] => t0
      else t0
    ⟨t1.1, t1.2, members.students.length, fr.2.1⟩

/-- `normalizeAssignment(raw)` (lines 550-626).  Oracles: `mo` for the roster
endpoint, `dof` for the detail endpoint, `pIso` for `Date` parsing.  The
cache is threaded explicitly (it is `this.classMembers` in the source);
the second component is the cache after the call. -/
def normalizeAssignment (mo : String → Except String (List Person))
    (dof : String → String → Option Raw) (pIso : String → Option String)
    (cache : List (String × Members)) (raw : Raw) :
    Canonical × List (String × Members) :=
  let subAgg := raw.submissionAggregates.getD ⟨none, none⟩
  let classId := raw.classId.getD ""
  let tinfo := resolveTeacher mo cache classId raw.createdBy
  ({ id := raw.id.getD ""
     title := raw.displayName.getD ""
     description := computeDescription dof classId raw.id raw.instructions
     dueDate := iso pIso raw.dueDateTime
     assignedDate := iso pIso raw.assignedDateTime
     createdDate := iso pIso raw.createdDateTime
     modifiedDate := iso pIso raw.lastModifiedDateTime
     status := raw.status.getD ""
     classId := classId
     teacherName := tinfo.teacherName
     teacherEmail := tinfo.teacherEmail
     studentCount := tinfo.studentCount
     webUrl := raw.webUrl.getD ""
     allTurnedIn := raw.allTurnedIn.getD false
     anySubmittedState := raw.anySubmittedState.getD false
     allowLateSubmissions := raw.allowLateSubmissions.getD false
     agg_total := subAgg.total.getD 0
     agg_submitted := subAgg.submitted.getD 0 },
   tinfo.cache)

/-- `(item.description || "").substring(0, 2000)` — the `Notes` rich-text
content built in `writeNotionPayload` (line 852) and `createNotionPage`
(line 1037). -/
def notionNotes (item : Canonical) : String :=
  String.mk (item.description.data.take 2000)

/-! ## FilterEngine: `applyFilters` (lines 628-679) -/

/-- The CLI arguments built by `parseArgs` (lines 49-113) that the filter and
state stages read. -/
structure Args where
  dueBefore : Option String := none
  dueAfter : Option String := none
  statuses : List String := []
  classIds : List String := []
  incomplete : Bool := false
  overdue : Bool := false
  incremental : Bool := false
  full : Bool := false
deriving DecidableEq

/-- The predicate of the `items.filter(...)` callback (lines 629-678):
`true` keeps the item.  `pIso` is the `parseIsoOrNull` oracle returning the
epoch value used for `Date` comparisons; `now` is `new Date()` at the
overdue check. -/
def keepItem (pIso : String → Option Int) (now : Int) (args : Args)
    (seenIds : List String) (item : Canonical) : Bool :=
  let dueBeforeExcl :=
    optTruthy args.dueBefore && item.dueDate ≠ "" &&
      (match pIso item.dueDate, pIso (args.dueBefore.getD "") with
       | some d, some b => decide (b < d)
       | _, _ => false)
  let dueAfterExcl :=
    optTruthy args.dueAfter && item.dueDate ≠ "" &&
      (match pIso item.dueDate, pIso (args.dueAfter.getD "") with
       | some d, some a => decide (d < a)
       | _, _ => false)
  let statusExcl := args.statuses ≠ [] && !args.statuses.contains item.status
  let classExcl := args.classIds ≠ [] && !args.classIds.contains item.classId
  let incompleteExcl :=
    args.incomplete && (item.allTurnedIn && item.anySubmittedState)
  let overdueExcl :=
    args.overdue &&
      (item.dueDate = "" ||
        match pIso item.dueDate with
        | none => true
        | some d => decide (now ≤ d))
  let incrementalExcl := args.incremental && seenIds.contains item.id
  !dueBeforeExcl && !dueAfterExcl && !statusExcl && !classExcl &&
    !incompleteExcl && !overdueExcl && !incrementalExcl

/-- `applyFilters(items)` (lines 628-679). -/
def applyFilters (pIso : String → Option Int) (now : Int) (args : Args)
    (seenIds : List String) (items : List Canonical) : List Canonical :=
  items.filter (keepItem pIso now args seenIds)

/-- Modelled from the spec: the filter conjunction described as "the
non-incremental filters" — every predicate of `applyFilters` except the
incremental dedup clause.  This definition follows the spec's words and is
used only to compare, for claim C3, the export set the code writes against
the set the spec says the exports capture. -/
def keepItemNonIncremental (pIso : String → Option Int) (now : Int)
    (args : Args) (item : Canonical) : Bool :=
  keepItem pIso now { args with incremental := false } [] item

/-- Modelled from the spec: "every item passing the non-incremental
filters". -/
def applyFiltersNonIncremental (pIso : String → Option Int) (now : Int)
    (args : Args) (items : List Canonical) : List Canonical :=
  items.filter (keepItemNonIncremental pIso now args)

/-! ## StateStore: `loadState`/`updateState` (lines 136-150, 1120-1130) -/

/-- `{lastRun, seenIds}` as persisted in `state.json`. -/
structure SyncState where
  lastRun : Option String := none
  seenIds : List String := []
deriving DecidableEq

/-- `updateState(processedIds)` (lines 1120-1130): full mode replaces the
seen list, incremental mode appends the ids not already present, and
`lastRun` is stamped with the current time (`nowIso`). -/
def updateState (args : Args) (state : SyncState) (processedIds : List String)
    (nowIso : String) : SyncState :=
  let seenIds :=
    if args.full then processedIds
    else if args.incremental then
      state.seenIds ++ processedIds.filter (fun id => !state.seenIds.contains id)
    else state.seenIds
  { seenIds := seenIds, lastRun := some nowIso }

/-! ## UpsertSync: `uploadToNotion` / `createRateLimiter`
(lines 919-960, 1108-1118) -/

/-- `items.filter(item => !existingIds.has(item.id))` (line 932): the items
for which `createNotionPage` will be called. -/
def notionNewItems (existingIds : List String) (items : List Canonical) :
    List Canonical :=
  items.filter (fun item => !existingIds.contains item.id)

/-- One activation of the closure returned by `createRateLimiter(delayMs)`
(lines 1108-1118): given the stored `lastCall` and the wall clock `now` at
entry, the time at which the closure returns (and stores as the new
`lastCall`).  When less than `delayMs` elapsed it sleeps the remainder. -/
def rateLimiterNext (delayMs lastCall now : Nat) : Nat :=
  if now - lastCall < delayMs then now + (delayMs - (now - lastCall))
  else now

/-- The sequence of create-call instants over the upload loop: `nows` are the
wall-clock readings at each loop iteration's `rateLimiter()` entry. -/
def fireTimes (delayMs : Nat) : Nat → List Nat → List Nat
  | _, [] => []
  | lastCall, now :: rest =>
    let t := rateLimiterNext delayMs lastCall now
    t :: fireTimes delayMs t rest

/-- The wall clock is monotone across the loop: each reading is at or after
the instant the previous create call fired (`Date.now()` cannot go backwards
past an already-observed instant in this single-threaded loop). -/
def validClock (delayMs : Nat) : Nat → List Nat → Bool
  | _, [] => true
  | lastCall, now :: rest =>
    lastCall ≤ now && validClock delayMs (rateLimiterNext delayMs lastCall now) rest

/-! ## The sync dataflow of `run()` (lines 1226-1251) -/

/-- The sets handed to each output stage by `run()`.  `writeJsonFile`,
`writeXlsxFile` (which also writes the CSVs) and `writeNotionPayload` all
receive `filteredAssignments`; `uploadToNotion` receives the same list and
then drops the ids already present in the remote store. -/
structure RunOutputs where
  jsonExport : List Canonical
  csvExport : List Canonical
  xlsxExport : List Canonical
  notionPayloadItems : List Canonical
  uploadCandidates : List Canonical
  processedIds : List String
  finalState : SyncState
deriving DecidableEq

/-- The pure dataflow of `run()` from `applyFilters` to `updateState`
(lines 1236-1250), starting from the already-normalized items.
`existingIds` is the identifier set returned by `getExistingNotionIds`. -/
def runPure (pIso : String → Option Int) (now : Int) (nowIso : String)
    (args : Args) (state : SyncState) (items : List Canonical)
    (existingIds : List String) : RunOutputs :=
  let filtered := applyFilters pIso now args state.seenIds items
  let processedIds := filtered.map (·.id)
  { jsonExport := filtered
    csvExport := filtered
    xlsxExport := filtered
    notionPayloadItems := filtered
    uploadCandidates := notionNewItems existingIds filtered
    processedIds := processedIds
    finalState := updateState args state processedIds nowIso }

/-! ## Concrete instances used by counterexamples and witnesses -/

/-- A roster oracle whose every lookup fails. -/
def moFail : String → Except String (List Person) := fun _ => .error "network"

/-- A detail-fetch oracle that always returns `null`. -/
def dofNone : String → String → Option Raw := fun _ _ => none

/-- A date oracle for which no string parses (ISO-string form). -/
def pIsoNoneS : String → Option String := fun _ => none

/-- A date oracle for which no string parses (epoch form, for filters). -/
def pIsoNoneI : String → Option Int := fun _ => none

/-- A 2001-character plain-text instructions body (no tags, no
whitespace). -/
def longA : String := String.mk (List.replicate 2001 'a')

/-- A raw record whose embedded instructions are plain text longer than 2000
characters. -/
def rawLong : Raw := { instructions := some ⟨some longA⟩ }

/-- A raw record with markup in its instructions. -/
def rawTagged : Raw := { instructions := some ⟨some "<b>hi</b>"⟩ }

/-- A raw record with every field absent. -/
def rawEmpty : Raw := {}

/-- A raw record carrying only a class identifier. -/
def rawClassOnly : Raw := { classId := some "c1" }

/-- A canonical item with id `"a"` and every other field at its default. -/
def itemA : Canonical :=
  { id := "a", title := "", description := "", dueDate := "",
    assignedDate := "", createdDate := "", modifiedDate := "", status := "",
    classId := "", teacherName := "", teacherEmail := "", studentCount := 0,
    webUrl := "", allTurnedIn := false, anySubmittedState := false,
    allowLateSubmissions := false, agg_total := 0, agg_submitted := 0 }

/-- A canonical item with id `"b"` and every other field at its default. -/
def itemB : Canonical :=
  { itemA with id := "b" }

/-- Arguments of a plain `--incremental` invocation. -/
def incrArgs : Args := { incremental := true }

/-- Arguments of a plain `--full` (default-mode) invocation. -/
def fullArgs : Args := { full := true }

/-- Arguments of a plain `--incomplete` invocation (mode flags irrelevant to
the filter stage). -/
def incompleteOnlyArgs : Args := { incomplete := true }

/-- A payload decoder recognizing only the claims blob `p`, with expiry
100. -/
def d6 : List Char → Option Payload :=
  fun l => if l = ['p'] then some ⟨some 100⟩ else none

/-- The well-shaped token `h.p.s`. -/
def tok6 : List Char := ['h', '.', 'p', '.', 's']

/-! # Theorems -/

/-! ## String lemmas -/

theorem dropWhile_eq_self_of_all {p : Char → Bool} :
    ∀ l : List Char, (∀ c ∈ l, p c = false) → l.dropWhile p = l := by
  intro l h
  cases l with
  | nil => rfl
  | cons c rest =>
    rw [List.dropWhile_cons]
    simp [h c (List.mem_cons_self c rest)]

theorem jsTrimList_eq_self_of_all (l : List Char)
    (h : ∀ c ∈ l, jsWhitespace c = false) : jsTrimList l = l := by
  unfold jsTrimList
  rw [dropWhile_eq_self_of_all l h]
  rw [dropWhile_eq_self_of_all l.reverse (fun c hc => h c (List.mem_reverse.mp hc))]
  exact List.reverse_reverse l

theorem stripAux_none_eq_self_of_no_lt :
    ∀ l : List Char, '<' ∉ l → stripAux none l = l := by
  intro l h
  induction l with
  | nil => rfl
  | cons c rest ih =>
    have hc : ¬ c = '<' := fun hc => h (hc ▸ List.mem_cons_self c rest)
    simp only [stripAux, if_neg hc]
    rw [ih (fun hm => h (List.mem_cons_of_mem c hm))]

theorem stripTrim_eq_self (s : String) (h1 : '<' ∉ s.data)
    (h2 : ∀ c ∈ s.data, jsWhitespace c = false) : stripTrim s = s := by
  unfold stripTrim stripTagsList
  rw [stripAux_none_eq_self_of_no_lt s.data h1, jsTrimList_eq_self_of_all s.data h2]

theorem stripTrim_longA : stripTrim longA = longA := by
  have h1 : '<' ∉ longA.data := by
    intro h
    have := List.eq_of_mem_replicate h
    exact absurd this (by decide)
  have h2 : ∀ c ∈ longA.data, jsWhitespace c = false := by
    intro c hc
    have := List.eq_of_mem_replicate hc
    subst this
    decide
  exact stripTrim_eq_self longA h1 h2

theorem longA_length : longA.length = 2001 := by
  show (List.replicate 2001 'a').length = 2001
  rw [List.length_replicate]

theorem longA_ne_empty : longA ≠ "" := by
  intro h
  have hlen : longA.length = ("" : String).length := congrArg String.length h
  rw [longA_length] at hlen
  exact absurd hlen (by decide)

/-! ## Tag-freeness of the stripped output -/

theorem noGt_stripAux :
    ∀ (l : List Char) (st : Option (List Char)),
      (∀ b, st = some b → '>' ∉ b) → NoGtAfterLt (stripAux st l) := by
  intro l
  induction l with
  | nil =>
    intro st hst
    cases st with
    | none =>
      intro l1 l2 heq
      exact absurd heq (by simp [stripAux])
    | some buf =>
      intro l1 l2 heq hmem
      apply hst buf rfl
      rw [← List.mem_reverse]
      show '>' ∈ stripAux (some buf) []
      rw [heq]
      exact List.mem_append_right l1 (List.mem_cons_of_mem '<' hmem)
  | cons c rest ih =>
    intro st hst
    cases st with
    | none =>
      by_cases hc : c = '<'
      · subst hc
        simp only [stripAux, if_pos rfl]
        exact ih (some ['<']) (by intro b hb; cases hb; decide)
      · simp only [stripAux, if_neg hc]
        have ihr := ih none (by intro b hb; cases hb)
        intro l1 l2 heq
        cases l1 with
        | nil =>
          simp only [List.nil_append] at heq
          exact absurd (List.head_eq_of_cons_eq heq) hc
        | cons a l1t =>
          have := List.tail_eq_of_cons_eq heq
          exact ihr l1t l2 this
    | some buf =>
      by_cases hc : c = '>'
      · subst hc
        simp only [stripAux, if_pos rfl]
        exact ih none (by intro b hb; cases hb)
      · simp only [stripAux, if_neg hc]
        apply ih (some (c :: buf))
        intro b hb
        cases hb
        intro hmem
        rcases List.mem_cons.mp hmem with h | h
        · exact hc h.symm
        · exact hst buf rfl h

theorem noGt_tagFree {l : List Char} (h : NoGtAfterLt l) : TagFree l := by
  intro l1 l2 l3 heq
  exact h l1 (l2 ++ '>' :: l3) heq
    (List.mem_append_right l2 (List.mem_cons_self '>' l3))

theorem tagFree_middle {s t u : List Char} (h : TagFree (s ++ t ++ u)) :
    TagFree t := by
  intro l1 l2 l3 heq
  apply h (s ++ l1) l2 (l3 ++ u)
  rw [heq]
  simp [List.append_assoc]

theorem exists_decomp_trim (l : List Char) :
    ∃ s u, l = s ++ jsTrimList l ++ u := by
  refine ⟨l.takeWhile jsWhitespace,
    ((l.dropWhile jsWhitespace).reverse.takeWhile jsWhitespace).reverse, ?_⟩
  have h1 := List.takeWhile_append_dropWhile jsWhitespace l
  have h2 := List.takeWhile_append_dropWhile jsWhitespace
    (l.dropWhile jsWhitespace).reverse
  have h3 := congrArg List.reverse h2
  rw [List.reverse_append, List.reverse_reverse] at h3
  conv_lhs => rw [← h1, ← h3]
  simp [jsTrimList, List.append_assoc]

theorem tagFree_stripTrim (s : String) : TagFree (stripTrim s).data := by
  have hNo : NoGtAfterLt (stripTagsList s.data) := by
    unfold stripTagsList
    exact noGt_stripAux s.data none (by intro b hb; cases hb)
  have hTF : TagFree (stripTagsList s.data) := noGt_tagFree hNo
  obtain ⟨a, b, hd⟩ := exists_decomp_trim (stripTagsList s.data)
  rw [hd] at hTF
  have : (stripTrim s).data = jsTrimList (stripTagsList s.data) := rfl
  rw [this]
  exact tagFree_middle hTF

/-! ## Claim C1 -/

set_option maxRecDepth 8192 in
/-- C1 counterexample: `normalizeAssignment` applies no 2000-character cap.
A raw record whose instructions block is 2001 characters of plain text
yields a canonical `description` of length 2001, refuting "the returned
description never exceeds 2000 characters". -/
theorem C1_counterexample :
    2000 < ((normalizeAssignment moFail dofNone pIsoNoneS [] rawLong).1).description.length := by
  have hdesc : ((normalizeAssignment moFail dofNone pIsoNoneS [] rawLong).1).description
      = computeDescription dofNone "" rawLong.id rawLong.instructions := rfl
  have hins : rawLong.instructions = some ⟨some longA⟩ := rfl
  have hid : rawLong.id = none := rfl
  rw [hdesc, hins, hid]
  simp only [computeDescription, extractInstructionsText, if_neg longA_ne_empty]
  rw [if_neg (by simp)]
  rw [stripTrim_longA, longA_length]
  decide

/-- C1 (amended): for every raw record whose instructions block carries
content `c` with a non-empty stripped-and-trimmed form, the canonical
`description` is exactly `c` with all markup tags stripped and whitespace
trimmed, with NO 2000-character cap applied at normalization; the
description contains no complete markup tag; and the 2000-character cap is
applied instead to the `Notes` field when the remote-store payload is
built. -/
theorem C1_description (mo : String → Except String (List Person))
    (dof : String → String → Option Raw) (pIso : String → Option String)
    (cache : List (String × Members)) (raw : Raw) (c : String)
    (h : raw.instructions = some ⟨some c⟩) (h2 : stripTrim c ≠ "") :
    ((normalizeAssignment mo dof pIso cache raw).1).description = stripTrim c ∧
    TagFree ((normalizeAssignment mo dof pIso cache raw).1).description.data ∧
    notionNotes (normalizeAssignment mo dof pIso cache raw).1
      = String.mk ((stripTrim c).data.take 2000) := by
  have hc : c ≠ "" := by
    intro hce
    exact h2 (by rw [hce]; rfl)
  have hdesc : ((normalizeAssignment mo dof pIso cache raw).1).description
      = computeDescription dof (raw.classId.getD "") raw.id raw.instructions := rfl
  have hmain : ((normalizeAssignment mo dof pIso cache raw).1).description = stripTrim c := by
    rw [hdesc, h]
    simp only [computeDescription, extractInstructionsText, if_neg hc]
    rw [if_neg (by simp [h2])]
  refine ⟨hmain, ?_, ?_⟩
  · rw [hmain]
    exact tagFree_stripTrim c
  · unfold notionNotes
    rw [hmain]

/-- C1 witness: the amended theorem at a concrete tagged instructions
block. -/
theorem C1_description_witness :
    rawTagged.instructions = some ⟨some "<b>hi</b>"⟩ ∧
    stripTrim "<b>hi</b>" ≠ "" ∧
    ((normalizeAssignment moFail dofNone pIsoNoneS [] rawTagged).1).description
      = stripTrim "<b>hi</b>" :=
  ⟨rfl, by decide,
   (C1_description moFail dofNone pIsoNoneS [] rawTagged "<b>hi</b>" rfl (by decide)).1⟩

/-! ## Claim C2 -/

/-- C2: `updateState` always stamps `lastRun` with the current time; in full
mode the seen-set becomes exactly the processed-id list; in incremental mode
the new seen-set contains exactly the ids in the union of the prior seen-set
and the processed ids (nothing is removed). -/
theorem C2_updateState (args : Args) (state : SyncState)
    (processedIds : List String) (nowIso : String) :
    (updateState args state processedIds nowIso).lastRun = some nowIso ∧
    (args.full = true →
      (updateState args state processedIds nowIso).seenIds = processedIds) ∧
    (args.full = false → args.incremental = true → ∀ x,
      x ∈ (updateState args state processedIds nowIso).seenIds ↔
        x ∈ state.seenIds ∨ x ∈ processedIds) := by
  refine ⟨rfl, ?_, ?_⟩
  · intro hfull
    simp [updateState, hfull]
  · intro hfull hinc x
    simp only [updateState, hfull, hinc, Bool.false_eq_true, if_false, if_true,
      List.mem_append, List.mem_filter, Bool.not_eq_true']
    constructor
    · rintro (h | ⟨h, _⟩)
      · exact Or.inl h
      · exact Or.inr h
    · rintro (h | h)
      · exact Or.inl h
      · by_cases hs : x ∈ state.seenIds
        · exact Or.inl hs
        · refine Or.inr ⟨h, ?_⟩
          rw [← Bool.not_eq_true]
          intro hc
          exact hs (List.elem_iff.mp hc)

/-- C2 witness: the spec's own examples — prior seen `{a,b}`, run `{b,c}`:
full mode yields `{b,c}`, incremental mode yields `{a,b,c}`. -/
theorem C2_updateState_witness :
    (updateState fullArgs ⟨none, ["a", "b"]⟩ ["b", "c"] "t").seenIds = ["b", "c"] ∧
    ("a" ∈ (updateState incrArgs ⟨none, ["a", "b"]⟩ ["b", "c"] "t").seenIds ↔
      "a" ∈ (["a", "b"] : List String) ∨ "a" ∈ (["b", "c"] : List String)) :=
  ⟨(C2_updateState fullArgs ⟨none, ["a", "b"]⟩ ["b", "c"] "t").2.1 rfl,
   (C2_updateState incrArgs ⟨none, ["a", "b"]⟩ ["b", "c"] "t").2.2 rfl rfl "a"⟩

/-! ## Claim C3 -/

/-- C3 counterexample: in incremental mode the export files do NOT receive
every item passing the non-incremental filters.  With prior seen-set `{a}`
and one item `a` passing every other filter, the flat record-set written by
the run is empty, while the set passing the non-incremental filters is
`[itemA]`. -/
theorem C3_counterexample :
    (runPure pIsoNoneI 0 "t" incrArgs ⟨none, ["a"]⟩ [itemA] []).jsonExport = [] ∧
    applyFiltersNonIncremental pIsoNoneI 0 incrArgs [itemA] = [itemA] := by
  constructor
  · decide
  · decide

/-- C3 (amended): the export files (flat record-set, tabular encoding,
remote-store payload) are all written with the output of `applyFilters`,
which in incremental mode already excludes previously-seen ids; the upload
stage draws from that same set (further deduplicated against the remote
store's existing ids).  In incremental mode no exported item has a
previously-seen id. -/
theorem C3_run_exports (pIso : String → Option Int) (now : Int)
    (nowIso : String) (args : Args) (state : SyncState)
    (items : List Canonical) (existingIds : List String) :
    (runPure pIso now nowIso args state items existingIds).jsonExport
      = applyFilters pIso now args state.seenIds items ∧
    (runPure pIso now nowIso args state items existingIds).csvExport
      = applyFilters pIso now args state.seenIds items ∧
    (runPure pIso now nowIso args state items existingIds).xlsxExport
      = applyFilters pIso now args state.seenIds items ∧
    (runPure pIso now nowIso args state items existingIds).notionPayloadItems
      = applyFilters pIso now args state.seenIds items ∧
    (runPure pIso now nowIso args state items existingIds).uploadCandidates
      = notionNewItems existingIds (applyFilters pIso now args state.seenIds items) ∧
    (args.incremental = true →
      ∀ item ∈ (runPure pIso now nowIso args state items existingIds).jsonExport,
        state.seenIds.contains item.id = false) := by
  refine ⟨rfl, rfl, rfl, rfl, rfl, ?_⟩
  intro hinc item hmem
  have hkeep : keepItem pIso now args state.seenIds item = true :=
    (List.mem_filter.mp hmem).2
  simp only [keepItem, hinc, Bool.true_and, Bool.and_eq_true,
    Bool.not_eq_true'] at hkeep
  exact hkeep.2

/-- C3 witness: the amended theorem at a concrete incremental run — the one
exported item's id is not in the prior seen-set. -/
theorem C3_run_exports_witness :
    incrArgs.incremental = true ∧
    itemB ∈ (runPure pIsoNoneI 0 "t" incrArgs ⟨none, ["a"]⟩ [itemB] []).jsonExport ∧
    (["a"] : List String).contains itemB.id = false :=
  ⟨rfl, by decide,
   (C3_run_exports pIsoNoneI 0 "t" incrArgs ⟨none, ["a"]⟩ [itemB] []).2.2.2.2.2
     rfl itemB (by decide)⟩

/-! ## Claim C4 -/

/-- C4 counterexample: under a recognized CI environment (`isCi = true`) the
`--refresh-tokens` CLI flag still makes `run` call `refreshTokensIfNeeded`,
which spawns the interactive extractor subprocess when the token is invalid —
refuting "never launches ... under any combination of CLI flags". -/
theorem C4_counterexample :
    (credPhase true true false false false false).launched = true := by
  decide

/-- C4 (amended): when running under CI or with auto-refresh disabled AND the
`--refresh-tokens` flag is not supplied, the orchestrator never launches the
extractor subprocess, and it proceeds exactly when the supplied credential
validates (otherwise it exits with an error). -/
theorem C4_no_launch (isCi autoRefreshDisabled tokenValid extractorOk
    tokenValidAfterReload : Bool)
    (h : isCi = true ∨ autoRefreshDisabled = true) :
    (credPhase false isCi autoRefreshDisabled tokenValid extractorOk
      tokenValidAfterReload).launched = false ∧
    ((credPhase false isCi autoRefreshDisabled tokenValid extractorOk
      tokenValidAfterReload).result = .proceed ↔ tokenValid = true) := by
  rcases h with h | h <;> subst h <;>
    revert tokenValid extractorOk tokenValidAfterReload <;>
    first
    | (revert autoRefreshDisabled; decide)
    | (revert isCi; decide)

/-- C4 witness: the amended theorem in CI with an invalid token — no launch,
and no proceed. -/
theorem C4_no_launch_witness :
    ((true : Bool) = true ∨ (false : Bool) = true) ∧
    (credPhase false true false false false false).launched = false :=
  ⟨Or.inl rfl, (C4_no_launch true false false false false (Or.inl rfl)).1⟩

/-! ## Claim C5 -/

/-- C5 counterexample: the code has no forced-refresh path into the
extractor — with the forced-refresh flag set and a valid credential,
`refreshTokensIfNeeded` returns success without launching any subprocess,
refuting "otherwise (credential missing, expired, or forceRefresh true) it
invokes the external credential-extractor". -/
theorem C5_counterexample :
    (credPhase true false false true false false).launched = false ∧
    (credPhase true false false true false false).result = .proceed := by
  decide

/-- C5 (amended): `refreshTokensIfNeeded` returns true immediately without
launching a subprocess whenever the current credential is valid, regardless
of any forced-refresh flag; when the credential is missing or invalid it
launches the extractor, treats a non-zero exit code as hard failure (no
reload, returns false), and on exit code 0 reloads configuration with
override semantics and returns the result of re-validation. -/
theorem C5_refresh (tokenValid extractorOk tokenValidAfterReload : Bool) :
    (tokenValid = true →
      refreshTokensIfNeeded tokenValid extractorOk tokenValidAfterReload
        = ⟨false, false, true⟩) ∧
    (tokenValid = false →
      (refreshTokensIfNeeded tokenValid extractorOk tokenValidAfterReload).launched = true ∧
      (extractorOk = false →
        refreshTokensIfNeeded tokenValid extractorOk tokenValidAfterReload
          = ⟨true, false, false⟩) ∧
      (extractorOk = true →
        (refreshTokensIfNeeded tokenValid extractorOk
          tokenValidAfterReload).reloadedOverride = true ∧
        (refreshTokensIfNeeded tokenValid extractorOk
          tokenValidAfterReload).ok = tokenValidAfterReload)) := by
  revert tokenValid extractorOk tokenValidAfterReload
  decide

/-- C5 witness: the amended theorem at an invalid token with a successful
extractor run. -/
theorem C5_refresh_witness :
    ((false : Bool) = false) ∧
    (refreshTokensIfNeeded false true true).launched = true :=
  ⟨rfl, ((C5_refresh false true true).2 rfl).1⟩

/-! ## Claim C6 -/

/-- C6: given the real-clock fact `0 ≤ now`, `validateToken` reports valid
iff the token is present, splits into exactly three dot-separated parts, its
claims blob decodes, and the decoded expiry claim is strictly after now.
Every other shape — missing token, wrong part count, undecodable claims,
absent expiry, or expiry at/before now — reports invalid, so validity is
never falsely reported. -/
theorem C6_validateToken (d : List Char → Option Payload)
    (tok : Option (List Char)) (now : Int) (hnow : 0 ≤ now) :
    validateToken d tok now = true ↔
      ∃ t p0 p1 p2 payload e, tok = some t ∧ splitOnDot t = [p0, p1, p2] ∧
        d p1 = some payload ∧ payload.exp = some e ∧ now < e := by
  constructor
  · intro hv
    cases tok with
    | none => exact absurd hv (by simp [validateToken])
    | some t =>
      simp only [validateToken] at hv
      by_cases ht : t = []
      · rw [if_pos ht] at hv
        exact absurd hv (by simp)
      · rw [if_neg ht] at hv
        split at hv
        next p0 p1 p2 heq =>
          split at hv
          next => exact absurd hv (by simp)
          next payload hd =>
            split at hv
            next e he =>
              split at hv
              next hecond =>
                exact ⟨t, p0, p1, p2, payload, e, rfl, heq, hd, he, hecond.2⟩
              next => exact absurd hv (by simp)
            next => exact absurd hv (by simp)
        next => exact absurd hv (by simp)
  · rintro ⟨t, p0, p1, p2, payload, e, rfl, hsp, hd, he, hlt⟩
    have ht : t ≠ [] := by
      intro h
      subst h
      simp [splitOnDot] at hsp
    have h1 : e ≠ 0 := by omega
    simp [validateToken, ht, hsp, hd, he, h1, hlt]

/-- C6 witness: the theorem at a concrete well-shaped, unexpired token. -/
theorem C6_validateToken_witness :
    (0 : Int) ≤ 5 ∧ validateToken d6 (some tok6) 5 = true :=
  ⟨by decide,
   (C6_validateToken d6 (some tok6) 5 (by decide)).mpr
     ⟨tok6, ['h'], ['p'], ['s'], ⟨some 100⟩, 100, rfl, by decide, by decide,
      rfl, by decide⟩⟩

/-! ## Claim C7 -/

/-- C7: with only the incomplete filter enabled, `applyFilters` retains
exactly the items that are not simultaneously fully turned-in and carrying a
submitted state — so an item with `allTurnedIn = true` is excluded iff it
also has `anySubmittedState = true`, and retained when
`anySubmittedState = false`. -/
theorem C7_incomplete_filter (pIso : String → Option Int) (now : Int)
    (seenIds : List String) (items : List Canonical) :
    applyFilters pIso now incompleteOnlyArgs seenIds items
      = items.filter (fun item => !(item.allTurnedIn && item.anySubmittedState)) := by
  unfold applyFilters
  apply List.filter_congr
  intro item _
  simp [keepItem, incompleteOnlyArgs, optTruthy]

/-! ## Claim C8 -/

theorem rateLimiter_spacing (delayMs lastCall now : Nat) (h : lastCall ≤ now) :
    lastCall + delayMs ≤ rateLimiterNext delayMs lastCall now := by
  unfold rateLimiterNext
  split <;> omega

/-- C8: `uploadToNotion` calls `createNotionPage` only on the items whose id
is absent from the queried existing-identifier set, and — whenever the wall
clock is monotone across the loop — consecutive create-call instants
produced by the rate limiter are spaced by at least `delayMs`, measured from
the instant of the previous call. -/
theorem C8_upsert (existingIds : List String) (items : List Canonical)
    (delayMs lastCall : Nat) (nows : List Nat)
    (h : validClock delayMs lastCall nows = true) :
    (∀ item ∈ notionNewItems existingIds items,
      existingIds.contains item.id = false) ∧
    List.Chain (fun a b => a + delayMs ≤ b) lastCall
      (fireTimes delayMs lastCall nows) := by
  constructor
  · intro item hmem
    have hp := (List.mem_filter.mp hmem).2
    simpa using hp
  · induction nows generalizing lastCall with
    | nil => exact List.Chain.nil
    | cons now rest ih =>
      unfold validClock at h
      rw [Bool.and_eq_true] at h
      unfold fireTimes
      exact List.Chain.cons
        (rateLimiter_spacing delayMs lastCall now (by simpa using h.1))
        (ih _ h.2)

/-- C8 witness: the theorem at a concrete monotone clock trace — the second
reading (100) arrives before the 300ms spacing has elapsed, so the limiter
sleeps and fires at 300 and then at 400+300=700... (the chain is produced by
the theorem). -/
theorem C8_upsert_witness :
    validClock 300 0 [100, 400] = true ∧
    List.Chain (fun a b => a + 300 ≤ b) 0 (fireTimes 300 0 [100, 400]) :=
  ⟨by decide, (C8_upsert [] [] 300 0 [100, 400] (by decide)).2⟩

/-! ## Claim C9 -/

theorem lookupCache_eq_none_iff (cache : List (String × Members)) (k : String) :
    lookupCache cache k = none ↔ ∀ kv ∈ cache, kv.1 ≠ k := by
  simp [lookupCache, List.find?_eq_none]

theorem mapSet_of_not_key (cache : List (String × Members)) (c : String)
    (m : Members) (h : ∀ kv ∈ cache, kv.1 ≠ c) :
    mapSet cache c m = cache ++ [(c, m)] := by
  unfold mapSet
  rw [if_neg]
  simp only [List.any_eq_true, not_exists]
  intro kv
  rw [not_and]
  intro hkv hbe
  exact h kv hkv (by simpa using hbe)

theorem fetchEvents_count_zero (oracle : String → Except String (List Person)) :
    ∀ (calls : List String) (cache : List (String × Members)) (k : String),
      (∃ kv ∈ cache, kv.1 = k) → (fetchEvents oracle cache calls).count k = 0 := by
  intro calls
  induction calls with
  | nil => intro cache k _; rfl
  | cons c rest ih =>
    intro cache k hk
    unfold fetchEvents
    cases hl : lookupCache cache c with
    | some m =>
      simp only [fetchClassMembers, hl]
      simpa using ih cache k hk
    | none =>
      have hc : ∀ kv ∈ cache, kv.1 ≠ c := (lookupCache_eq_none_iff cache c).mp hl
      have hkc : k ≠ c := by
        obtain ⟨kv, hkv, hkvk⟩ := hk
        intro he
        exact hc kv hkv (hkvk.trans he)
      have hk' : ∀ m', ∃ kv ∈ cache ++ [(c, m')], kv.1 = k := by
        intro m'
        obtain ⟨kv, hkv, hkvk⟩ := hk
        exact ⟨kv, List.mem_append_left _ hkv, hkvk⟩
      cases ho : oracle c with
      | ok value =>
        simp only [fetchClassMembers, hl, ho, if_true]
        rw [mapSet_of_not_key cache c _ hc]
        simp only [List.singleton_append, List.count_cons_of_ne hkc]
        exact ih _ k (hk' _)
      | error e =>
        simp only [fetchClassMembers, hl, ho, if_true]
        rw [mapSet_of_not_key cache c _ hc]
        simp only [List.singleton_append, List.count_cons_of_ne hkc]
        exact ih _ k (hk' _)

/-- C9: within one run, `fetchClassMembers` performs at most one network
fetch per distinct class identifier, for every oracle behavior — a failed
lookup is memoized (as an empty roster) exactly like a success, so later
calls for the same id never refetch. -/
theorem C9_roster_memoized (oracle : String → Except String (List Person))
    (calls : List String) (classId : String) :
    (fetchEvents oracle [] calls).count classId ≤ 1 := by
  suffices h : ∀ (calls : List String) (cache : List (String × Members))
      (k : String), (fetchEvents oracle cache calls).count k ≤ 1 from
    h calls [] classId
  intro calls
  induction calls with
  | nil => intro cache k; simp [fetchEvents]
  | cons c rest ih =>
    intro cache k
    unfold fetchEvents
    cases hl : lookupCache cache c with
    | some m =>
      simp only [fetchClassMembers, hl]
      simpa using ih cache k
    | none =>
      have hc : ∀ kv ∈ cache, kv.1 ≠ c := (lookupCache_eq_none_iff cache c).mp hl
      have hkey : ∀ m', ∃ kv ∈ cache ++ [(c, m')], kv.1 = c := by
        intro m'
        exact ⟨(c, m'), List.mem_append_right _ (List.mem_singleton.mpr rfl), rfl⟩
      cases ho : oracle c with
      | ok value =>
        simp only [fetchClassMembers, hl, ho, if_true]
        rw [mapSet_of_not_key cache c _ hc]
        by_cases hk : k = c
        · subst hk
          simp only [List.singleton_append, List.count_cons_self]
          rw [fetchEvents_count_zero oracle rest _ k (hkey _)]
        · simp only [List.singleton_append, List.count_cons_of_ne hk]
          exact ih _ k
      | error e =>
        simp only [fetchClassMembers, hl, ho, if_true]
        rw [mapSet_of_not_key cache c _ hc]
        by_cases hk : k = c
        · subst hk
          simp only [List.singleton_append, List.count_cons_self]
          rw [fetchEvents_count_zero oracle rest _ k (hkey _)]
        · simp only [List.singleton_append, List.count_cons_of_ne hk]
          exact ih _ k

/-! ## Claim C10 -/

/-- C10: `normalizeAssignment` is total over arbitrary raw records and all
oracle behaviors (so a roster failure or detail-fetch failure can never make
it throw), and every absent input field lands on its declared default: absent
strings become `""`, absent booleans become `false`, absent counts become
`0`, an absent class id additionally zeroes the roster-derived fields, and a
failed roster fetch degrades to empty teacher fields and a zero student
count. -/
theorem C10_normalize_total (mo : String → Except String (List Person))
    (dof : String → String → Option Raw) (pIso : String → Option String)
    (cache : List (String × Members)) (raw : Raw) :
    (raw.id = none → ((normalizeAssignment mo dof pIso cache raw).1).id = "") ∧
    (raw.displayName = none →
      ((normalizeAssignment mo dof pIso cache raw).1).title = "") ∧
    (raw.status = none →
      ((normalizeAssignment mo dof pIso cache raw).1).status = "") ∧
    (raw.webUrl = none →
      ((normalizeAssignment mo dof pIso cache raw).1).webUrl = "") ∧
    (raw.dueDateTime = none →
      ((normalizeAssignment mo dof pIso cache raw).1).dueDate = "") ∧
    (raw.assignedDateTime = none →
      ((normalizeAssignment mo dof pIso cache raw).1).assignedDate = "") ∧
    (raw.createdDateTime = none →
      ((normalizeAssignment mo dof pIso cache raw).1).createdDate = "") ∧
    (raw.lastModifiedDateTime = none →
      ((normalizeAssignment mo dof pIso cache raw).1).modifiedDate = "") ∧
    (raw.allTurnedIn = none →
      ((normalizeAssignment mo dof pIso cache raw).1).allTurnedIn = false) ∧
    (raw.anySubmittedState = none →
      ((normalizeAssignment mo dof pIso cache raw).1).anySubmittedState = false) ∧
    (raw.allowLateSubmissions = none →
      ((normalizeAssignment mo dof pIso cache raw).1).allowLateSubmissions = false) ∧
    (raw.submissionAggregates = none →
      ((normalizeAssignment mo dof pIso cache raw).1).agg_total = 0 ∧
      ((normalizeAssignment mo dof pIso cache raw).1).agg_submitted = 0) ∧
    (raw.classId = none →
      ((normalizeAssignment mo dof pIso cache raw).1).classId = "" ∧
      ((normalizeAssignment mo dof pIso cache raw).1).teacherName = "" ∧
      ((normalizeAssignment mo dof pIso cache raw).1).teacherEmail = "" ∧
      ((normalizeAssignment mo dof pIso cache raw).1).studentCount = 0) ∧
    (raw.instructions = none → raw.classId = none →
      ((normalizeAssignment mo dof pIso cache raw).1).description = "") ∧
    (∀ cid msg, raw.classId = some cid → cid ≠ "" →
      lookupCache cache cid = none → mo cid = .error msg →
      ((normalizeAssignment mo dof pIso cache raw).1).teacherName = "" ∧
      ((normalizeAssignment mo dof pIso cache raw).1).teacherEmail = "" ∧
      ((normalizeAssignment mo dof pIso cache raw).1).studentCount = 0) := by
  refine ⟨?_, ?_, ?_, ?_, ?_, ?_, ?_, ?_, ?_, ?_, ?_, ?_, ?_, ?_, ?_⟩
  · intro h; simp [normalizeAssignment, h]
  · intro h; simp [normalizeAssignment, h]
  · intro h; simp [normalizeAssignment, h]
  · intro h; simp [normalizeAssignment, h]
  · intro h; simp [normalizeAssignment, iso, h]
  · intro h; simp [normalizeAssignment, iso, h]
  · intro h; simp [normalizeAssignment, iso, h]
  · intro h; simp [normalizeAssignment, iso, h]
  · intro h; simp [normalizeAssignment, h]
  · intro h; simp [normalizeAssignment, h]
  · intro h; simp [normalizeAssignment, h]
  · intro h; simp [normalizeAssignment, h]
  · intro h; simp [normalizeAssignment, resolveTeacher, h]
  · intro h h2
    simp [normalizeAssignment, computeDescription, extractInstructionsText, h, h2]
  · intro cid msg h1 h2 h3 h4
    have hres : resolveTeacher mo cache cid raw.createdBy
        = ⟨"", "", 0, mapSet cache cid emptyMembers⟩ := by
      unfold resolveTeacher
      rw [if_neg h2]
      simp only [fetchClassMembers, h3, h4]
      cases hub : (raw.createdBy.bind (·.user)).bind (·.id) with
      | none => simp [emptyMembers]
      | some uid =>
        by_cases hu : uid = ""
        · simp [hu, emptyMembers]
        · simp [hu, mapGet, emptyMembers]
    refine ⟨?_, ?_, ?_⟩ <;> simp [normalizeAssignment, h1, hres]

/-- C10 witness: the theorem at a record with every field absent (failing
roster, detail and date oracles), and at a record whose only field is a
class id for which the roster fetch fails. -/
theorem C10_normalize_total_witness :
    rawEmpty.id = none ∧ rawClassOnly.classId = some "c1" ∧
    ((normalizeAssignment moFail dofNone pIsoNoneS [] rawEmpty).1).id = "" ∧
    ((normalizeAssignment moFail dofNone pIsoNoneS [] rawEmpty).1).allTurnedIn = false ∧
    ((normalizeAssignment moFail dofNone pIsoNoneS [] rawEmpty).1).agg_total = 0 ∧
    ((normalizeAssignment moFail dofNone pIsoNoneS [] rawClassOnly).1).teacherName = "" := by
  obtain ⟨h1, _, _, _, _, _, _, _, h9, _, _, h12, _, _, _⟩ :=
    C10_normalize_total moFail dofNone pIsoNoneS [] rawEmpty
  obtain ⟨_, _, _, _, _, _, _, _, _, _, _, _, _, _, h15⟩ :=
    C10_normalize_total moFail dofNone pIsoNoneS [] rawClassOnly
  exact ⟨rfl, rfl, h1 rfl, h9 rfl, (h12 rfl).1,
    (h15 "c1" "network" rfl (by decide) rfl rfl).1⟩
